import Mathlib

/-!
Verification of the `skin` craft plugin
(`skeinforge_application/skeinforge_plugins/craft_plugins/skin.py`).

The development is a shallow embedding at two levels of granularity:

* a geometric level, where toolpath points are exact rationals standing in
  for the Python floats, the external 2D geometry primitives are a
  capability record (`Geometry`), and the two generators
  (`addSkinnedPerimeter`, `addSkinnedInfill`) emit an explicit list of
  `Event`s in place of writing gcode lines;

* a line level, where the input is the literal list of gcode text lines and
  the three scans of `SkinSkein.getCraftedGcode` (`parseInitialization`,
  `parseBoundaries` and the `parseLine` body loop) are modelled over raw
  token lists.  Numeric arguments that only flow into geometry (layer
  heights, coordinates, flow values) are stored as their raw tokens, since
  no structural decision of the scanner depends on their values.

Fallible Python operations (attribute access on `None`, out-of-range list
indexing) are modelled with `Option`; `none` is a raised exception.
-/

namespace Skin

/-! ## Geometric level: points, events, machine state -/

/-- A 2D toolpath point, modelling the Python `complex` values
(`location.dropAxis()`); exact rationals stand in for floats. -/
abbrev Point : Type := ℚ × ℚ

/-- Complex multiplication, as used by `euclidean.getRotatedComplexes` to
rotate a point by a unit complex number. -/
def cmul (a b : Point) : Point := (a.1 * b.1 - a.2 * b.2, a.1 * b.2 + a.2 * b.1)

/-- Complex conjugate: `SkinSkein.reverseRotation` is
`complex(self.rotation.real, -self.rotation.imag)` (skin.py:363). -/
def conj (a : Point) : Point := (a.1, -a.2)

/-- A 3D location (`fabmetheus_utilities.vector3.Vector3`), as tracked in
`SkinSkein.oldLocation`. -/
structure Vector3 where
  x : ℚ
  y : ℚ
  z : ℚ
deriving DecidableEq

/-- The external 2D geometry primitives consumed by skin.py.  Modelled from
the spec: the repository code under `src/` only calls
`intercircle.getLargestInsetLoopFromLoop`,
`euclidean.getClippedSimplifiedLoopPath` and the scanline-infill chain
(`triangle_mesh.getInfillDictionary`, `euclidean.getSegmentsFromXIntersections`,
`euclidean.getPathsFromEndpoints`); the spec treats them as a capability
interface, so they are fields of a record here.  `getInfillPaths` bundles the
whole scanline pipeline of `addSkinnedInfillBoundary` (skin.py:194-203):
its arguments are the infill inset, the per-division infill width, the
lateral offset (already added back onto segment endpoints inside the
pipeline) and the rotated boundary loops, and its result is the list of
reconstructed infill paths, still in the canonical (rotated) frame. -/
structure Geometry where
  getLargestInsetLoopFromLoop : List Point → ℚ → List Point
  getClippedSimplifiedLoopPath : ℚ → List Point → ℚ → List Point
  getInfillPaths : ℚ → ℚ → ℚ → List (List Point) → List (List Point)

/-- One emitted output item of a generator.  `flowRate r` is the
`M108 S<r>` line of `addFlowRateLine` (skin.py:159-161, the four-significant
-figure formatting is external string rendering); `perimeterLoop` is one
`addPerimeterLoop` call (skin.py:163-165); `infillThread` is one
`addGcodeFromFeedRateThreadZ` call for a reconstructed infill path
(skin.py:208); `hopMove` is one `addGcodeMovementZWithFeedRate` hop
(skin.py:207, 212). -/
inductive Event where
  | flowRate (rate : ℚ)
  | perimeterLoop (thread : List Point) (z : ℚ)
  | infillThread (path : List Point) (z : ℚ)
  | hopMove (point : Point) (z : ℚ)
deriving DecidableEq

/-- The numeric fields of `SkinSkein` read by the two generators.
`verticalDivisions` is the already-clamped count of skin.py:255
(`max(repository.verticalDivisions.value, 1)`), and
`horizontalPerimeterDivisions` the repository value as consumed by
`xrange` (a non-positive Python value yields an empty range, matching ℕ).
`oldLocation` and `oldFlowRate` are modelled as always present: the
generators dereference them unconditionally, and every claim below is about
runs in which initialization has populated them. -/
structure Skein where
  oldLocation : Vector3
  layerThickness : ℚ
  verticalDivisions : ℕ
  horizontalPerimeterDivisions : ℕ
  horizontalInfillDivisionsFloat : ℚ
  oldFlowRate : ℚ
  perimeterWidth : ℚ
  halfPerimeterWidth : ℚ
  clipLength : ℚ
  skinInfillWidth : ℚ
  skinInfillInset : ℚ
  rotation : Point
  hopWhenExtrudingInfill : Bool
  perimeter : Option (List Point)
  infillBoundaries : Option (List (List Point))
deriving DecidableEq

/-- `float(self.verticalDivisions)` (skin.py:256). -/
def verticalDivisionsFloat (s : Skein) : ℚ := (s.verticalDivisions : ℚ)

/-- `float(repository.horizontalPerimeterDivisions.value)` (skin.py:254). -/
def horizontalPerimeterDivisionsFloat (s : Skein) : ℚ :=
  (s.horizontalPerimeterDivisions : ℚ)

/-- `getIsMinimumSides` (skin.py:99-104): every loop has at least `sides`
points. -/
def getIsMinimumSides (loops : List (List Point)) (sides : ℕ) : Bool :=
  loops.all (fun loop => decide (sides ≤ loop.length))

/-- `SkinSkein.getClippedSimplifiedLoopPathByLoop` (skin.py:241-246): an
empty loop yields an empty path, otherwise the loop is closed by appending
its first point and clipped/simplified. -/
def getClippedSimplifiedLoopPathByLoop (g : Geometry) (s : Skein)
    (loop : List Point) : List Point :=
  match loop with
  | [] => []
  | p :: rest =>
    g.getClippedSimplifiedLoopPath s.clipLength ((p :: rest) ++ [p]) s.halfPerimeterWidth

/-- The inset radius used for horizontal perimeter division `division`
(skin.py:221-225): the mutable `radius` starts at
`0.5 * radiusAddition - halfPerimeterWidth` and grows by `radiusAddition`
per appended division, where `radiusAddition = perimeterWidth / divisions`. -/
def perimeterRadius (s : Skein) (division : ℕ) : ℚ :=
  let radiusAddition := s.perimeterWidth / horizontalPerimeterDivisionsFloat s
  (1/2) * radiusAddition - s.halfPerimeterWidth + (division : ℚ) * radiusAddition

/-- The per-division clipped inset loops of `addSkinnedPerimeter`
(skin.py:220-225). -/
def insetPerimeters (g : Geometry) (s : Skein) (perimeterThread : List Point) :
    List (List Point) :=
  (List.range s.horizontalPerimeterDivisions).map (fun division =>
    getClippedSimplifiedLoopPathByLoop g s
      (g.getLargestInsetLoopFromLoop perimeterThread (perimeterRadius s division)))

/-- `bottomZ = oldLocation.z + layerThickness / verticalDivisionsFloat -
layerThickness` (skin.py:171, 218). -/
def bottomZ (s : Skein) : ℚ :=
  s.oldLocation.z + s.layerThickness / verticalDivisionsFloat s - s.layerThickness

/-- The z of vertical division `k`:
`bottomZ + layerThickness / verticalDivisionsFloat * k` (skin.py:175, 230, 236). -/
def divisionZ (s : Skein) (k : ℕ) : ℚ :=
  bottomZ s + s.layerThickness / verticalDivisionsFloat s * (k : ℚ)

/-- `SkinSkein.addSkinnedPerimeter` (skin.py:214-239) as a pure function
from the skein state to the emitted events and the updated state. -/
def addSkinnedPerimeter (g : Geometry) (s : Skein) : List Event × Skein :=
  match s.perimeter with
  | none => ([], s)
  | some perimeter =>
    let perimeterThread := perimeter.dropLast
    let perimeters := insetPerimeters g s perimeterThread
    let skinnedPerimeterFlowRate := s.oldFlowRate / verticalDivisionsFloat s
    let body :=
      if getIsMinimumSides perimeters 3 then
        Event.flowRate (skinnedPerimeterFlowRate / horizontalPerimeterDivisionsFloat s) ::
          (List.range s.verticalDivisions).flatMap (fun k =>
            perimeters.map (fun q => Event.perimeterLoop q (divisionZ s k)))
      else
        Event.flowRate skinnedPerimeterFlowRate ::
          (List.range s.verticalDivisions).map (fun k =>
            Event.perimeterLoop perimeter (divisionZ s k))
    (body ++ [Event.flowRate s.oldFlowRate], { s with perimeter := none })

/-- The rotation and optional lateral shift applied to one boundary loop in
`addSkinnedInfillBoundary` (skin.py:188-193). -/
def rotatedBoundary (s : Skein) (offsetY : ℚ) (infillBoundary : List Point) :
    List Point :=
  let infillBoundaryRotated := infillBoundary.map (cmul (conj s.rotation))
  if offsetY = 0 then infillBoundaryRotated
  else infillBoundaryRotated.map (fun p => (p.1, p.2 - offsetY))

/-- Emission of one reconstructed infill path (skin.py:204-212): rotate the
path back, optionally hop before and after, emit the thread, and overwrite
`oldLocation` with the path's last point at `upperZ`.  `none` models the
`infillRotated[0]` indexing error on an empty path. -/
def processInfillPath (s : Skein) (upperZ z : ℚ) (infillPath : List Point) :
    Option (List Event × Skein) :=
  match infillPath.map (cmul s.rotation) with
  | [] => none
  | p0 :: rest =>
    let infillRotated := p0 :: rest
    let lastPointRotated := infillRotated.getLastD p0
    let hop := s.hopWhenExtrudingInfill && decide (z < upperZ)
    some ((if hop then [Event.hopMove p0 upperZ] else []) ++
            [Event.infillThread infillRotated z] ++
            (if hop then [Event.hopMove lastPointRotated upperZ] else []),
          { s with oldLocation := ⟨lastPointRotated.1, lastPointRotated.2, upperZ⟩ })

/-- The `for infillPath in infillPaths` loop of `addSkinnedInfillBoundary`
(skin.py:204-212), threading the state through each path. -/
def processInfillPaths (s : Skein) (upperZ z : ℚ) :
    List (List Point) → Option (List Event × Skein)
  | [] => some ([], s)
  | infillPath :: rest => do
    let (evs, s1) ← processInfillPath s upperZ z infillPath
    let (evs2, s2) ← processInfillPaths s1 upperZ z rest
    return (evs ++ evs2, s2)

/-- `SkinSkein.addSkinnedInfillBoundary` (skin.py:180-212): rotate and shift
the boundary loops, run the external scanline pipeline, and emit each
reconstructed path. -/
def addSkinnedInfillBoundary (g : Geometry) (s : Skein)
    (infillBoundaries : List (List Point)) (offsetY upperZ z : ℚ) :
    Option (List Event × Skein) :=
  let rotatedLoops := infillBoundaries.map (rotatedBoundary s offsetY)
  let infillPaths := g.getInfillPaths s.skinInfillInset s.skinInfillWidth offsetY rotatedLoops
  processInfillPaths s upperZ z infillPaths

/-- The `for verticalDivisionIndex in xrange(self.verticalDivisions)` loop of
`addSkinnedInfill` (skin.py:174-176).  `bz` and `tV` are `bottomZ` and
`layerThickness / verticalDivisionsFloat`, both computed once before the
loop; `upperZ` is re-read from the current `oldLocation.z` at every
iteration, exactly as `self.oldLocation.z` is in the source. -/
def infillDivisions (g : Geometry) (infillBoundaries : List (List Point))
    (bz tV offsetY : ℚ) : List ℕ → Skein → Option (List Event × Skein)
  | [], s => some ([], s)
  | k :: ks, s => do
    let z := bz + tV * (k : ℚ)
    let oy := offsetY * (if k % 2 = 0 then 1 else 0)
    let (evs, s1) ← addSkinnedInfillBoundary g s infillBoundaries oy s.oldLocation.z z
    let (evs2, s2) ← infillDivisions g infillBoundaries bz tV offsetY ks s1
    return (evs ++ evs2, s2)

/-- `SkinSkein.addSkinnedInfill` (skin.py:167-178): a no-op on an absent
boundary set, otherwise a flow-rate line scaled by both division counts, the
vertical sub-passes, a flow-rate restore line, and clearing of the set. -/
def addSkinnedInfill (g : Geometry) (s : Skein) : Option (List Event × Skein) :=
  match s.infillBoundaries with
  | none => some ([], s)
  | some bs => do
    let offsetY := (1/2) * s.skinInfillWidth
    let (evs, s1) ← infillDivisions g bs (bottomZ s)
      (s.layerThickness / verticalDivisionsFloat s) offsetY
      (List.range s.verticalDivisions) s
    return (Event.flowRate (s.oldFlowRate / verticalDivisionsFloat s / s.horizontalInfillDivisionsFloat) ::
              evs ++ [Event.flowRate s.oldFlowRate],
            { s1 with infillBoundaries := none })

/-- The `(thread, z)` payloads of the perimeter-loop events in an event
list, in emission order. -/
def perimeterLoopEvents (evs : List Event) : List (List Point × ℚ) :=
  evs.filterMap (fun e =>
    match e with
    | Event.perimeterLoop thread z => some (thread, z)
    | _ => none)

/-- The `(path, z)` payloads of the infill-thread events in an event list,
in emission order. -/
def infillThreadEvents (evs : List Event) : List (List Point × ℚ) :=
  evs.filterMap (fun e =>
    match e with
    | Event.infillThread path z => some (path, z)
    | _ => none)

/-- The vertical division count used by the transform:
`max(repository.verticalDivisions.value, 1)` (skin.py:255). -/
def usedVerticalDivisions (v : ℤ) : ℤ := max v 1

/-- The horizontal infill division count used by the transform: the
configuration value, unclamped (skin.py:253). -/
def usedHorizontalInfillDivisions (h : ℤ) : ℤ := h

/-- The horizontal perimeter division count used by the transform: the
configuration value, unclamped (skin.py:254). -/
def usedHorizontalPerimeterDivisions (h : ℤ) : ℤ := h

/-! ## Line level: tokenization and the three scans -/

/-- Whitespace tokenizer on characters (accumulator holds the current word
reversed). -/
def wordsAux (cur : List Char) : List Char → List (List Char)
  | [] => if cur = [] then [] else [cur.reverse]
  | c :: rest =>
    if c = ' ' then
      if cur = [] then wordsAux [] rest else cur.reverse :: wordsAux [] rest
    else wordsAux (c :: cur) rest

/-- Modelled from the spec: `gcodec.getSplitLineBeforeBracketSemicolon` is
external to `src/`; per the spec the parameter parser splits each line
"into whitespace-delimited tokens".  The comment/bracket truncation of the
original only affects trailing comments, which none of the structural
markers examined here carry. -/
def getSplitLineBeforeBracketSemicolon (line : String) : List String :=
  (wordsAux [] line.toList).map (fun cs => String.mk cs)

/-- `gcodec.getFirstWord` (external to `src/`): the first token, or the
empty string when there is none. -/
def getFirstWord (splitLine : List String) : String := splitLine.headD ""

/-- Modelled from the spec: the stage-completion marker tag emitted by
`distanceFeedRate.addTagBracketedProcedure('skin')` (skin.py:302), a
`gcodec` helper external to `src/`. -/
def skinProcedureLine : String := "(<procedureName> skin </procedureName>)"

/-- Substring test on character lists. -/
def isInfixB (p : List Char) : List Char → Bool
  | [] => p.isPrefixOf []
  | c :: rest => p.isPrefixOf (c :: rest) || isInfixB p rest

/-- Whether the stage-completion marker is present in a text. -/
def containsSkinProcedure (text : String) : Bool :=
  isInfixB skinProcedureLine.toList text.toList

/-- Modelled from the spec: `gcodec.isProcedureDoneOrFileIsEmpty` (external
to `src/`) — "A no-op short-circuit is required whenever the
stage-completion marker is already present, or input is empty". -/
def isProcedureDoneOrFileIsEmpty (gcodeText : String) : Bool :=
  gcodeText == "" || containsSkinProcedure gcodeText

/-- `getCraftedTextFromText` (skin.py:89-97), with the activation flag taken
as an argument in place of the settings read, and the full
`SkinSkein().getCraftedGcode` call abstracted as `craft`. -/
def getCraftedTextFromText (activateSkin : Bool) (craft : String → String)
    (gcodeText : String) : String :=
  if isProcedureDoneOrFileIsEmpty gcodeText then gcodeText
  else if !activateSkin then gcodeText
  else craft gcodeText

/-- Replace the last element of a list, if any. -/
def modifyLast (f : α → α) : List α → List α
  | [] => []
  | [a] => [f a]
  | a :: b :: rest => a :: modifyLast f (b :: rest)

/-- Replace the element at an index, if present. -/
def modifyIdx (f : α → α) : ℕ → List α → List α
  | _, [] => []
  | 0, a :: rest => f a :: rest
  | n + 1, a :: rest => a :: modifyIdx f n rest

/-- One boundary layer of the prescan (`euclidean.LoopLayer`): the raw
height token of its `(<layer>` line and its boundary loops, each loop a
list of raw `(<boundaryPoint>` token lists (coordinate parsing is purely
numeric and kept symbolic). -/
structure BoundaryLayer where
  z : String
  loops : List (List (List String))
deriving DecidableEq

/-- Scan state of `parseBoundaries` (skin.py:266-286).  `currentLoopLayer`
models the Python `boundaryLoop` reference: `some i` means the current
boundary loop is the last loop of layer `i` (the loop list is mutated
through that reference); it is cleared by `(</boundaryPerimeter>)` and is
NOT cleared by `(<layer>`, exactly as in the source. -/
structure PrescanState where
  layers : List BoundaryLayer
  layerIndexTop : ℤ
  currentLoopLayer : Option ℕ
deriving DecidableEq

/-- One line of the prescan loop of `parseBoundaries` (skin.py:272-286).
`none` models the Python errors: a `(<boundaryPoint>` before any `(<layer>`
dereferences `boundaryLayer = None`, and a `(<layer>` line without a height
argument raises an IndexError. -/
def prescanLine (st : PrescanState) (line : String) : Option PrescanState :=
  let splitLine := getSplitLineBeforeBracketSemicolon line
  let firstWord := getFirstWord splitLine
  if firstWord = "(</boundaryPerimeter>)" then
    some { st with currentLoopLayer := none }
  else if firstWord = "(<boundaryPoint>" then
    match st.currentLoopLayer with
    | some i =>
      some { st with layers := modifyIdx (fun layer =>
        { layer with loops := modifyLast (fun lp => lp ++ [splitLine]) layer.loops }) i st.layers }
    | none =>
      match st.layers with
      | [] => none
      | _ :: _ =>
        some { st with
          layers := modifyLast (fun layer =>
            { layer with loops := layer.loops ++ [[splitLine]] }) st.layers,
          currentLoopLayer := some (st.layers.length - 1) }
  else if firstWord = "(<layer>" then
    match splitLine.get? 1 with
    | none => none
    | some zTok =>
      some { st with layers := st.layers ++ [⟨zTok, []⟩],
                     layerIndexTop := st.layerIndexTop + 1 }
  else some st

/-- The prescan loop over the remaining lines. -/
def prescanLines (st : PrescanState) : List String → Option PrescanState
  | [] => some st
  | line :: rest => do
    let st1 ← prescanLine st line
    prescanLines st1 rest

/-- The offset adjustment loop of `parseBoundaries` (skin.py:287-290): add
the index of the first boundary layer with a non-empty loop set to
`layersFromBottom`; leave it unmodified when every layer is empty. -/
def adjustLayersFromBottom (layersFromBottom : ℤ) (i : ℕ) :
    List BoundaryLayer → ℤ
  | [] => layersFromBottom
  | layer :: rest =>
    if 0 < layer.loops.length then layersFromBottom + (i : ℤ)
    else adjustLayersFromBottom layersFromBottom (i + 1) rest

/-- The results of `parseBoundaries` consumed by the body scan. -/
structure BoundaryResult where
  boundaryLayers : List BoundaryLayer
  layerIndexTop : ℤ
  layersFromBottom : ℤ
deriving DecidableEq

/-- `SkinSkein.parseBoundaries` (skin.py:266-290), run over the lines from
the current scan position on. -/
def parseBoundaries (layersFromBottom : ℤ) (lines : List String) :
    Option BoundaryResult := do
  let st ← prescanLines ⟨[], -1, none⟩ lines
  return ⟨st.layers, st.layerIndexTop, adjustLayersFromBottom layersFromBottom 0 st.layers⟩

/-- The machine parameters recorded by `parseInitialization`
(skin.py:292-320), as raw second tokens; `none` means the tag was never
seen (the corresponding Python attribute keeps its seed default or stays
unset).  Float parsing and the derived quantities (`skinInfillWidth`,
`halfPerimeterWidth`, per-minute conversions) are numeric-only and are
modelled at the geometric level. -/
structure InitParams where
  clipOverPerimeterWidth : Option String := none
  infillPerimeterOverlap : Option String := none
  infillWidth : Option String := none
  layerThickness : Option String := none
  maximumZFeedRatePerSecond : Option String := none
  operatingFlowRate : Option String := none
  perimeterWidth : Option String := none
  travelFeedRatePerSecond : Option String := none
deriving DecidableEq

/-- The recognized-tag dispatch of `parseInitialization` (skin.py:299-319),
storing the raw argument token of each recognized tag. -/
def updateParams (p : InitParams) (firstWord : String) (splitLine : List String) :
    InitParams :=
  if firstWord = "(<clipOverPerimeterWidth>" then { p with clipOverPerimeterWidth := splitLine.get? 1 }
  else if firstWord = "(<infillPerimeterOverlap>" then { p with infillPerimeterOverlap := splitLine.get? 1 }
  else if firstWord = "(<infillWidth>" then { p with infillWidth := splitLine.get? 1 }
  else if firstWord = "(<layerThickness>" then { p with layerThickness := splitLine.get? 1 }
  else if firstWord = "(<maximumZFeedRatePerSecond>" then { p with maximumZFeedRatePerSecond := splitLine.get? 1 }
  else if firstWord = "(<operatingFlowRate>" then { p with operatingFlowRate := splitLine.get? 1 }
  else if firstWord = "(<perimeterWidth>" then { p with perimeterWidth := splitLine.get? 1 }
  else if firstWord = "(<travelFeedRatePerSecond>" then { p with travelFeedRatePerSecond := splitLine.get? 1 }
  else p

/-- The result of `parseInitialization`: the recorded parameters, the lines
written to the output accumulator, and the value of `self.lineIndex` on
return. -/
structure InitResult where
  params : InitParams
  output : List String
  lineIndex : ℕ
deriving DecidableEq

/-- The scan loop of `parseInitialization` (skin.py:294-320).  `done` is the
index of the current line.  On the end-of-initialization marker the
stage-completion tag is emitted and the loop returns immediately —
`self.lineIndex` is then the index OF the marker line, and the marker line
itself is not added here (the body scan, which resumes at `self.lineIndex`,
forwards it).  If the marker never occurs, the Python `for` loop leaves
`self.lineIndex` at `len(lines) - 1` (or at its initial 0 for no lines). -/
def initScan (p : InitParams) (out : List String) (done : ℕ) :
    List String → InitResult
  | [] => ⟨p, out, if done = 0 then 0 else done - 1⟩
  | line :: rest =>
    let splitLine := getSplitLineBeforeBracketSemicolon line
    let firstWord := getFirstWord splitLine
    if firstWord = "(</extruderInitialization>)" then
      ⟨p, out ++ [skinProcedureLine], done⟩
    else
      initScan (updateParams p firstWord splitLine) (out ++ [line]) (done + 1) rest

/-- `SkinSkein.parseInitialization` (skin.py:292-320). -/
def parseInitialization (lines : List String) : InitResult :=
  initScan {} [] 0 lines

/-- The body-scan state of `SkinSkein` (skin.py:142-157) at line level.
Points and numeric scalars are raw token lists: no branch of `parseLine`
depends on their values.  `infillBoundaryFresh` models the Python aliasing
of `self.infillBoundary`: it is `true` exactly when `infillBoundary` is the
last loop of the open `infillBoundaries` set, so that appending a point
through the reference also updates the set.  (Feed-rate tracking, purely
numeric, lives at the geometric level.) -/
structure LineState where
  layerIndex : ℤ
  layersFromBottom : ℤ
  layerIndexTop : ℤ
  perimeter : Option (List (List String))
  infillBoundaries : Option (List (List (List String)))
  infillBoundary : Option (List (List String))
  infillBoundaryFresh : Bool
  oldFlowRate : Option String
  oldLocation : Option (List String)
  rotation : Option (List String)
deriving DecidableEq

/-- The generator calls made by `parseLine`, abstracted at line level:
`perimeterOut` is the output of `addSkinnedPerimeter` on the captured
buffer, and `infillOut` the output of `addSkinnedInfill` on the captured
boundary set together with its overwrite of `oldLocation` (`none` = left
unchanged).  Their concrete content is the geometric-level model above. -/
structure GenHooks where
  perimeterOut : LineState → List (List String) → List String
  infillOut : LineState → List (List (List String)) → List String × Option (List String)

/-- `SkinSkein.parseLine` (skin.py:322-366) as a step function: the updated
state and the lines appended to the output.  `none` models the Python
errors: `M108` without an argument (IndexError on `splitLine[1]`) and an
`(<infillPoint>` while the boundary set is open but `self.infillBoundary`
is still `None` (AttributeError on `None.append`). -/
def parseLine (hooks : GenHooks) (s : LineState) (line : String) :
    Option (LineState × List String) :=
  match getSplitLineBeforeBracketSemicolon line with
  | [] => some (s, [])
  | firstWord :: args =>
    let splitLine := firstWord :: args
    if firstWord = "G1" then
      let s := { s with oldLocation := some splitLine }
      if s.infillBoundaries.isSome then some (s, [])
      else
        match s.perimeter with
        | some per => some ({ s with perimeter := some (per ++ [splitLine]) }, [])
        | none => some (s, [line])
    else if firstWord = "(<infill>)" then
      if s.layersFromBottom ≤ s.layerIndex ∧ s.layerIndex = s.layerIndexTop then
        some ({ s with infillBoundaries := some [], infillBoundaryFresh := false }, [line])
      else some (s, [line])
    else if firstWord = "(</infill>)" then
      match s.infillBoundaries with
      | none => some (s, [line])
      | some bs =>
        let r := hooks.infillOut s bs
        some ({ s with infillBoundaries := none,
                       oldLocation := match r.2 with
                         | some loc => some loc
                         | none => s.oldLocation },
              r.1 ++ [line])
    else if firstWord = "(<infillBoundary>)" then
      match s.infillBoundaries with
      | none => some (s, [line])
      | some bs =>
        some ({ s with infillBoundaries := some (bs ++ [[]]),
                       infillBoundary := some [],
                       infillBoundaryFresh := true }, [line])
    else if firstWord = "(<infillPoint>" then
      match s.infillBoundaries with
      | none => some (s, [line])
      | some bs =>
        match s.infillBoundary with
        | none => none
        | some lb =>
          if s.infillBoundaryFresh then
            some ({ s with infillBoundaries := some (modifyLast (fun lp => lp ++ [splitLine]) bs),
                           infillBoundary := some (lb ++ [splitLine]) }, [line])
          else
            some ({ s with infillBoundary := some (lb ++ [splitLine]) }, [line])
    else if firstWord = "(<layer>" then
      some ({ s with layerIndex := s.layerIndex + 1 }, [line])
    else if firstWord = "M101" ∨ firstWord = "M103" then
      if s.infillBoundaries.isSome ∨ s.perimeter.isSome then some (s, [])
      else some (s, [line])
    else if firstWord = "M108" then
      match splitLine.get? 1 with
      | none => none
      | some w => some ({ s with oldFlowRate := some w }, [line])
    else if firstWord = "(<perimeter>" then
      if s.layersFromBottom ≤ s.layerIndex then
        some ({ s with perimeter := some [] }, [line])
      else some (s, [line])
    else if firstWord = "(<rotation>" then
      some ({ s with rotation := some splitLine }, [line])
    else if firstWord = "(</perimeter>)" then
      match s.perimeter with
      | none => some (s, [line])
      | some per => some ({ s with perimeter := none }, hooks.perimeterOut s per ++ [line])
    else some (s, [line])

/-- The body loop of `getCraftedGcode` (skin.py:261-263) over a list of
lines, threading state and concatenating output. -/
def runLines (hooks : GenHooks) (s : LineState) :
    List String → Option (LineState × List String)
  | [] => some (s, [])
  | line :: rest => do
    let (s1, out1) ← parseLine hooks s line
    let (s2, out2) ← runLines hooks s1 rest
    return (s2, out1 ++ out2)

/-- Whether a line is a `(<layer>` structural marker. -/
def isLayerLine (line : String) : Bool :=
  match getSplitLineBeforeBracketSemicolon line with
  | [] => false
  | firstWord :: _ => firstWord == "(<layer>"

/-- The number of `(<layer>` lines in a list. -/
def layerLineCount (lines : List String) : ℕ := lines.countP isLayerLine

/-- The body-scan state at the start of the body loop (skin.py:142-157 for
the seeds, skin.py:248-260 for the prescan results). -/
def initialLineState (pb : BoundaryResult) (p : InitParams) : LineState :=
  { layerIndex := -1
    layersFromBottom := pb.layersFromBottom
    layerIndexTop := pb.layerIndexTop
    perimeter := none
    infillBoundaries := none
    infillBoundary := none
    infillBoundaryFresh := false
    oldFlowRate := p.operatingFlowRate
    oldLocation := none
    rotation := none }

/-- `SkinSkein.getCraftedGcode` (skin.py:248-264) at line level: the
initialization scan, the boundary prescan from the resulting scan position,
and the body loop from that same position.  (The final
`getGcodeWithoutDuplication` pass is external deduplication of consecutive
`M108` lines and is not modelled.) -/
def getCraftedGcodeLines (hooks : GenHooks) (layersFromBottom : ℤ)
    (lines : List String) : Option (List String) := do
  let ir := parseInitialization lines
  let body := lines.drop ir.lineIndex
  let pb ← parseBoundaries layersFromBottom body
  let (_, out) ← runLines hooks (initialLineState pb ir.params) body
  return ir.output ++ out

/-! ## Concrete instances used by witnesses and counterexamples -/

/-- An identity geometry: insetting and clipping return their input loop and
the scanline pipeline returns no paths. -/
def geomId : Geometry :=
  { getLargestInsetLoopFromLoop := fun loop _ => loop
    getClippedSimplifiedLoopPath := fun _ loopPath _ => loopPath
    getInfillPaths := fun _ _ _ _ => [] }

/-- A geometry whose scanline pipeline always reconstructs the single path
`[(1,2),(3,4)]`. -/
def geomPaths : Geometry :=
  { geomId with getInfillPaths := fun _ _ _ _ => [[(1, 2), (3, 4)]] }

/-- A captured square perimeter loop (closed, as captured by the body scan). -/
def squareLoop : List Point := [(0, 0), (4, 0), (4, 4), (0, 4), (0, 0)]

/-- A skein state with layer top z = 10, thickness 1, two vertical and one
horizontal perimeter division, holding `squareLoop` and one infill boundary. -/
def skeinSquare : Skein :=
  { oldLocation := ⟨0, 0, 10⟩
    layerThickness := 1
    verticalDivisions := 2
    horizontalPerimeterDivisions := 1
    horizontalInfillDivisionsFloat := 2
    oldFlowRate := 210
    perimeterWidth := 1
    halfPerimeterWidth := 1/2
    clipLength := 0
    skinInfillWidth := 1/2
    skinInfillInset := 1/2
    rotation := (1, 0)
    hopWhenExtrudingInfill := false
    perimeter := some squareLoop
    infillBoundaries := some [[(0, 0), (6, 0), (6, 6)]] }

/-- A skein state whose captured perimeter degenerates (two coincident
points, so the closed inset path has only 2 points). -/
def skeinDeg : Skein := { skeinSquare with perimeter := some [(0, 0), (0, 0)] }

/-- A skein state for the infill generator with a single vertical division
and layer top z = 5. -/
def skeinInfill : Skein :=
  { skeinSquare with verticalDivisions := 1, oldFlowRate := 20, oldLocation := ⟨0, 0, 5⟩ }

/-- Trivial generator hooks: no generated output, no position overwrite. -/
def hooks0 : GenHooks := ⟨fun _ _ => [], fun _ _ => ([], none)⟩

/-- A line-level state with no open capture buffers, at a layer past the
start offset and at the top layer. -/
def sNoBuf : LineState :=
  { layerIndex := 2, layersFromBottom := 1, layerIndexTop := 2,
    perimeter := none, infillBoundaries := none, infillBoundary := none,
    infillBoundaryFresh := false, oldFlowRate := none, oldLocation := none,
    rotation := none }

/-- A header whose end-of-initialization marker sits at index 1. -/
def initLinesCx : List String :=
  ["(<layerThickness> 0.4", "(</extruderInitialization>)", "(<layer> 0.0"]

/-- A stream in which an `(<infillPoint>` arrives while infill capture is
open but before any `(<infillBoundary>)`. -/
def crashLines : List String :=
  ["(</extruderInitialization>)", "(<layer> 0.0", "(<infill>)",
   "(<infillPoint> X1.0 Y2.0 Z0.0"]

/-- A prescan input whose layers 0 and 1 are empty and whose layer 2 is the
first with a boundary loop. -/
def prescanLines5 : List String :=
  ["(<layer> 0.0", "(<layer> 1.0", "(<layer> 2.0",
   "(<boundaryPoint> X1.0 Y2.0 Z2.0", "(</boundaryPerimeter>)"]

/-- The boundary prescan result of `prescanLines5` with configured starting
index 1. -/
def pb5 : BoundaryResult :=
  { boundaryLayers :=
      [⟨"0.0", []⟩, ⟨"1.0", []⟩,
       ⟨"2.0", [[["(<boundaryPoint>", "X1.0", "Y2.0", "Z2.0"]]]⟩]
    layerIndexTop := 2
    layersFromBottom := 3 }

/-- A body for the gating scenario: the three layer markers followed by a
perimeter start (still below the start offset) and a motion command. -/
def body5 : List String := prescanLines5 ++ ["(<perimeter>", "G1 X1.0 Y2.0 Z2.0"]

/-- The body-scan state after `body5`. -/
def state5 : LineState :=
  { layerIndex := 2, layersFromBottom := 3, layerIndexTop := 2,
    perimeter := none, infillBoundaries := none, infillBoundary := none,
    infillBoundaryFresh := false, oldFlowRate := none,
    oldLocation := some ["G1", "X1.0", "Y2.0", "Z2.0"], rotation := none }

/-! ## Helper lemmas -/

theorem modifyLast_length (f : α → α) : ∀ l : List α, (modifyLast f l).length = l.length
  | [] => rfl
  | [_] => rfl
  | a :: b :: rest => by
    simp [modifyLast, modifyLast_length f (b :: rest)]

theorem modifyIdx_length (f : α → α) : ∀ (i : ℕ) (l : List α),
    (modifyIdx f i l).length = l.length
  | i, [] => by cases i <;> rfl
  | 0, _ :: _ => rfl
  | n + 1, a :: rest => by
    simp only [modifyIdx, List.length_cons]
    rw [modifyIdx_length f n rest]

theorem filterMap_some_eq_map (f : α → β) (l : List α) :
    l.filterMap (fun a => some (f a)) = l.map f := by
  induction l with
  | nil => rfl
  | cons a t ih => simp [List.filterMap_cons, ih]

theorem prescanLine_top (st st1 : PrescanState) (line : String)
    (h : prescanLine st line = some st1)
    (hinv : st.layerIndexTop = (st.layers.length : ℤ) - 1) :
    st1.layerIndexTop = (st1.layers.length : ℤ) - 1 := by
  simp only [prescanLine] at h
  split_ifs at h with h1 h2 h3
  · injection h with h
    subst h
    simpa using hinv
  · cases hc : st.currentLoopLayer with
    | some i =>
      rw [hc] at h
      injection h with h
      subst h
      simpa [modifyIdx_length] using hinv
    | none =>
      rw [hc] at h
      cases hl : st.layers with
      | nil => rw [hl] at h; exact absurd h (by simp)
      | cons a t =>
        rw [hl] at h
        injection h with h
        subst h
        rw [hl] at hinv
        simpa [modifyLast_length] using hinv
  · cases hz : (getSplitLineBeforeBracketSemicolon line).get? 1 with
    | none => rw [hz] at h; exact absurd h (by simp)
    | some zTok =>
      rw [hz] at h
      injection h with h
      subst h
      simp only [List.length_append, List.length_cons, List.length_nil]
      push_cast
      omega
  · injection h with h
    subst h
    exact hinv

theorem prescanLines_top :
    ∀ (lines : List String) (st st' : PrescanState),
    prescanLines st lines = some st' →
    st.layerIndexTop = (st.layers.length : ℤ) - 1 →
    st'.layerIndexTop = (st'.layers.length : ℤ) - 1
  | [], st, st', h, hinv => by
    injection h with h
    subst h
    exact hinv
  | line :: rest, st, st', h, hinv => by
    simp only [prescanLines, Option.bind_eq_bind] at h
    cases hstep : prescanLine st line with
    | none => rw [hstep] at h; exact absurd h (by simp)
    | some st1 =>
      rw [hstep] at h
      simp only [Option.some_bind] at h
      exact prescanLines_top rest st1 st' h (prescanLine_top st st1 line hstep hinv)

/-! ## Claims -/

/-- C1: for every input text, the transform is the identity whenever the
stage-completion marker is already present, the input is empty, or the
activate-skin flag is false; consequently applying the transform to its own
output is the identity whenever that output contains the marker. -/
theorem getCraftedTextFromText_short_circuit (activateSkin : Bool)
    (craft : String → String) (gcodeText : String) :
    (isProcedureDoneOrFileIsEmpty gcodeText = true →
      getCraftedTextFromText activateSkin craft gcodeText = gcodeText) ∧
    (gcodeText = "" →
      getCraftedTextFromText activateSkin craft gcodeText = gcodeText) ∧
    (containsSkinProcedure gcodeText = true →
      getCraftedTextFromText activateSkin craft gcodeText = gcodeText) ∧
    (activateSkin = false →
      getCraftedTextFromText activateSkin craft gcodeText = gcodeText) ∧
    (containsSkinProcedure (getCraftedTextFromText activateSkin craft gcodeText) = true →
      getCraftedTextFromText activateSkin craft
          (getCraftedTextFromText activateSkin craft gcodeText) =
        getCraftedTextFromText activateSkin craft gcodeText) := by
  have key : ∀ t : String, isProcedureDoneOrFileIsEmpty t = true →
      getCraftedTextFromText activateSkin craft t = t := by
    intro t h
    simp [getCraftedTextFromText, h]
  refine ⟨key gcodeText, ?_, ?_, ?_, ?_⟩
  · rintro rfl
    exact key "" (by decide)
  · intro h
    exact key gcodeText (by simp [isProcedureDoneOrFileIsEmpty, h])
  · rintro rfl
    by_cases h : isProcedureDoneOrFileIsEmpty gcodeText = true
    · exact key gcodeText h
    · simp [getCraftedTextFromText, h]
  · intro h
    exact key _ (by simp [isProcedureDoneOrFileIsEmpty, h])

/-- Witness for C1 at concrete inputs: a text holding the marker is
returned unchanged, deactivation is the identity, and a second application
to an output containing the marker is the identity. -/
theorem getCraftedTextFromText_short_circuit_witness :
    isProcedureDoneOrFileIsEmpty skinProcedureLine = true ∧
    getCraftedTextFromText true (fun _ => skinProcedureLine) skinProcedureLine =
      skinProcedureLine ∧
    getCraftedTextFromText false (fun t => t ++ "X") "abc" = "abc" ∧
    getCraftedTextFromText true (fun _ => skinProcedureLine)
        (getCraftedTextFromText true (fun _ => skinProcedureLine) "abc") =
      getCraftedTextFromText true (fun _ => skinProcedureLine) "abc" := by
  refine ⟨by decide, ?_, ?_, ?_⟩
  · exact (getCraftedTextFromText_short_circuit true _ skinProcedureLine).1 (by decide)
  · exact (getCraftedTextFromText_short_circuit false _ "abc").2.2.2.1 rfl
  · exact (getCraftedTextFromText_short_circuit true _ "abc").2.2.2.2 (by decide)

/-- C9 (amended): the vertical division count is clamped to at least 1 for
every configuration value, but the two horizontal division counts are used
exactly as supplied by the configuration, without clamping. -/
theorem division_counts_clamping (v hInfill hPerimeter : ℤ) :
    1 ≤ usedVerticalDivisions v ∧
    usedHorizontalInfillDivisions hInfill = hInfill ∧
    usedHorizontalPerimeterDivisions hPerimeter = hPerimeter :=
  ⟨le_max_right v 1, rfl, rfl⟩

/-- Counterexample to C9 as stated: a configuration supplying 0 for the
horizontal division counts leaves them 0, below 1, after the only clamping
the transform performs. -/
theorem division_counts_counterexample :
    usedHorizontalInfillDivisions 0 = 0 ∧
    ¬ (1 ≤ usedHorizontalInfillDivisions 0) ∧
    usedHorizontalPerimeterDivisions 0 = 0 ∧
    ¬ (1 ≤ usedHorizontalPerimeterDivisions 0) := by
  decide

/-- C3: when some computed horizontal inset loop has fewer than 3 points,
the generator falls back to exactly `verticalDivisions` copies of the
original captured loop (not an inset), with the block's flow rate scaled
down only by the vertical division count. -/
theorem addSkinnedPerimeter_fallback (g : Geometry) (s : Skein) (p : List Point)
    (hp : s.perimeter = some p)
    (hdeg : getIsMinimumSides (insetPerimeters g s p.dropLast) 3 = false) :
    (addSkinnedPerimeter g s).1 =
      Event.flowRate (s.oldFlowRate / verticalDivisionsFloat s) ::
        ((List.range s.verticalDivisions).map (fun k =>
          Event.perimeterLoop p (divisionZ s k)) ++ [Event.flowRate s.oldFlowRate]) ∧
    (perimeterLoopEvents (addSkinnedPerimeter g s).1).length = s.verticalDivisions ∧
    (∀ tz ∈ perimeterLoopEvents (addSkinnedPerimeter g s).1, tz.1 = p) ∧
    (∀ loops : List (List Point),
      (getIsMinimumSides loops 3 = false ↔ ∃ l ∈ loops, l.length < 3)) := by
  have hiff : ∀ loops : List (List Point),
      (getIsMinimumSides loops 3 = false ↔ ∃ l ∈ loops, l.length < 3) := by
    intro loops
    rw [← Bool.not_eq_true, getIsMinimumSides, List.all_eq_true]
    simp [not_le]
  have hev : (addSkinnedPerimeter g s).1 =
      Event.flowRate (s.oldFlowRate / verticalDivisionsFloat s) ::
        ((List.range s.verticalDivisions).map (fun k =>
          Event.perimeterLoop p (divisionZ s k)) ++ [Event.flowRate s.oldFlowRate]) := by
    unfold addSkinnedPerimeter
    rw [hp]
    simp [hdeg]
  refine ⟨hev, ?_, ?_, hiff⟩
  · rw [hev]
    simp [perimeterLoopEvents, List.filterMap_append, List.filterMap_map, Function.comp_def,
      filterMap_some_eq_map]
  · rw [hev]
    intro tz htz
    simp [perimeterLoopEvents, List.filterMap_append, List.filterMap_map,
      Function.comp_def] at htz
    obtain ⟨k, -, hk⟩ := htz
    rw [← hk]

/-- Witness for C3: the degenerate two-point perimeter produces exactly the
vertical-division count of copies of the original loop. -/
theorem addSkinnedPerimeter_fallback_witness :
    skeinDeg.perimeter = some [(0, 0), (0, 0)] ∧
    getIsMinimumSides (insetPerimeters geomId skeinDeg
      ([(0, 0), (0, 0)] : List Point).dropLast) 3 = false ∧
    (perimeterLoopEvents (addSkinnedPerimeter geomId skeinDeg).1).length =
      skeinDeg.verticalDivisions ∧
    (∀ tz ∈ perimeterLoopEvents (addSkinnedPerimeter geomId skeinDeg).1,
      tz.1 = [(0, 0), (0, 0)]) := by
  have h := addSkinnedPerimeter_fallback geomId skeinDeg [(0, 0), (0, 0)] rfl (by decide)
  exact ⟨rfl, by decide, h.2.1, h.2.2.1⟩

/-- C6: at a start-of-infill marker an empty boundary set opens exactly
when the current layer index is at or past the start offset and equals the
topmost prescan layer index, and otherwise the state is unchanged; a
subsequent end-of-infill marker with no open set generates nothing; and the
topmost prescan index is the index of the last recorded boundary layer. -/
theorem infill_capture_gating (hooks : GenHooks) (s : LineState) :
    (∀ line rest, getSplitLineBeforeBracketSemicolon line = "(<infill>)" :: rest →
      s.infillBoundaries = none →
      parseLine hooks s line =
        some (if s.layersFromBottom ≤ s.layerIndex ∧ s.layerIndex = s.layerIndexTop
              then { s with infillBoundaries := some [], infillBoundaryFresh := false }
              else s, [line])) ∧
    (∀ line rest, getSplitLineBeforeBracketSemicolon line = "(</infill>)" :: rest →
      s.infillBoundaries = none →
      parseLine hooks s line = some (s, [line])) ∧
    (∀ (layersFrom : ℤ) (lines : List String) (pb : BoundaryResult),
      parseBoundaries layersFrom lines = some pb →
      pb.layerIndexTop = (pb.boundaryLayers.length : ℤ) - 1) := by
  refine ⟨?_, ?_, ?_⟩
  · intro line rest hsl hset
    simp only [parseLine]
    rw [hsl]
    by_cases hc : s.layersFromBottom ≤ s.layerIndex ∧ s.layerIndex = s.layerIndexTop <;>
      simp [hc]
    split_ifs <;> rfl
  · intro line rest hsl hset
    simp only [parseLine]
    rw [hsl]
    simp [hset]
  · intro layersFrom lines pb h
    unfold parseBoundaries at h
    cases hps : prescanLines ⟨[], -1, none⟩ lines with
    | none => rw [hps] at h; exact absurd h (by simp)
    | some st =>
      rw [hps] at h
      simp at h
      subst h
      exact prescanLines_top lines _ st hps (by simp)

/-- Witness for C6: a state at the top layer and past the offset opens
capture; one not at the top layer does not, and its end marker only
forwards the line; a one-layer prescan records top index 0. -/
theorem infill_capture_gating_witness :
    sNoBuf.infillBoundaries = none ∧
    parseLine hooks0 sNoBuf "(<infill>)" =
      some ({ sNoBuf with infillBoundaries := some [], infillBoundaryFresh := false },
        ["(<infill>)"]) ∧
    parseLine hooks0 { sNoBuf with layerIndexTop := 5 } "(<infill>)" =
      some ({ sNoBuf with layerIndexTop := 5 }, ["(<infill>)"]) ∧
    parseLine hooks0 sNoBuf "(</infill>)" = some (sNoBuf, ["(</infill>)"]) ∧
    (parseBoundaries 0 ["(<layer> 0.0"] = some ⟨[⟨"0.0", []⟩], 0, 0⟩ ∧
      (0 : ℤ) = ((1 : ℕ) : ℤ) - 1) := by
  have h1 := (infill_capture_gating hooks0 sNoBuf).1 "(<infill>)" [] (by decide) rfl
  have h2 := (infill_capture_gating hooks0 { sNoBuf with layerIndexTop := 5 }).1
    "(<infill>)" [] (by decide) rfl
  have h3 := (infill_capture_gating hooks0 sNoBuf).2.1 "(</infill>)" [] (by decide) rfl
  refine ⟨rfl, ?_, ?_, h3, by decide, ?_⟩
  · rw [h1]
    decide
  · rw [h2]
    decide
  · have h4 := (infill_capture_gating hooks0 sNoBuf).2.2 0 ["(<layer> 0.0"]
      ⟨[⟨"0.0", []⟩], 0, 0⟩ (by decide)
    exact h4

theorem length_range_flatMap_map {β : Type _} (n : ℕ) (l : List α) (f : ℕ → α → β) :
    ((List.range n).flatMap (fun k => l.map (f k))).length = n * l.length := by
  induction n with
  | zero => simp
  | succ m ih =>
    simp [List.range_succ, ih]
    ring

theorem filterMap_flatMap_list (l : List α) (g : α → List β) (f : β → Option γ) :
    (l.flatMap g).filterMap f = l.flatMap (fun a => (g a).filterMap f) := by
  induction l with
  | nil => rfl
  | cons a t ih => simp [List.flatMap_cons, List.filterMap_append, ih]

/-- C2 (amended): in the non-degenerate case, one captured perimeter yields
exactly V×H emitted closed loops — H inset loops replayed at each of V
distinct z values stepped upward by thickness÷V — and the z values span
[top − thickness + thickness∕V, top] (not [top − thickness,
top − thickness∕V] as stated): the first emitted z is
top − thickness + thickness∕V and the last is the layer top itself. -/
theorem addSkinnedPerimeter_divisions (g : Geometry) (s : Skein) (p : List Point)
    (hp : s.perimeter = some p)
    (hmin : getIsMinimumSides (insetPerimeters g s p.dropLast) 3 = true)
    (hV : 1 ≤ s.verticalDivisions)
    (hH : 1 ≤ s.horizontalPerimeterDivisions)
    (ht : 0 < s.layerThickness) :
    perimeterLoopEvents (addSkinnedPerimeter g s).1 =
      (List.range s.verticalDivisions).flatMap (fun k =>
        (insetPerimeters g s p.dropLast).map (fun q => (q, divisionZ s k))) ∧
    (perimeterLoopEvents (addSkinnedPerimeter g s).1).length =
      s.verticalDivisions * s.horizontalPerimeterDivisions ∧
    (∀ k1 k2, k1 < s.verticalDivisions → k2 < s.verticalDivisions →
      divisionZ s k1 = divisionZ s k2 → k1 = k2) ∧
    divisionZ s 0 = s.oldLocation.z - s.layerThickness +
      s.layerThickness / (s.verticalDivisions : ℚ) ∧
    divisionZ s (s.verticalDivisions - 1) = s.oldLocation.z ∧
    (∀ k, k < s.verticalDivisions →
      divisionZ s 0 ≤ divisionZ s k ∧ divisionZ s k ≤ s.oldLocation.z) := by
  have hVQ : (0 : ℚ) < (s.verticalDivisions : ℚ) := by
    exact_mod_cast Nat.lt_of_lt_of_le Nat.zero_lt_one hV
  have hVne : ((s.verticalDivisions : ℚ)) ≠ 0 := ne_of_gt hVQ
  have hd : 0 < s.layerThickness / (s.verticalDivisions : ℚ) :=
    div_pos ht hVQ
  have hcast : ((s.verticalDivisions - 1 : ℕ) : ℚ) = (s.verticalDivisions : ℚ) - 1 := by
    push_cast [hV]
    ring
  have hev : perimeterLoopEvents (addSkinnedPerimeter g s).1 =
      (List.range s.verticalDivisions).flatMap (fun k =>
        (insetPerimeters g s p.dropLast).map (fun q => (q, divisionZ s k))) := by
    unfold addSkinnedPerimeter
    rw [hp]
    simp [hmin, perimeterLoopEvents, List.filterMap_append, filterMap_flatMap_list,
      List.filterMap_map, Function.comp_def, filterMap_some_eq_map]
  have hlast : divisionZ s (s.verticalDivisions - 1) = s.oldLocation.z := by
    simp only [divisionZ, bottomZ, verticalDivisionsFloat, hcast]
    field_simp
    ring
  refine ⟨hev, ?_, ?_, ?_, hlast, ?_⟩
  · rw [hev]
    have hlen := length_range_flatMap_map s.verticalDivisions
      (insetPerimeters g s p.dropLast) (fun k q => (q, divisionZ s k))
    simp only [hlen]
    simp [insetPerimeters]
  · intro k1 k2 _ _ heq
    simp only [divisionZ] at heq
    have h4 := add_left_cancel heq
    have h5 : (k1 : ℚ) = (k2 : ℚ) :=
      mul_left_cancel₀ (by simpa [verticalDivisionsFloat] using ne_of_gt hd) h4
    exact_mod_cast h5
  · simp only [divisionZ, bottomZ, verticalDivisionsFloat]
    push_cast
    ring
  · intro k hk
    have hd2 : 0 < s.layerThickness / verticalDivisionsFloat s := by
      simpa [verticalDivisionsFloat] using hd
    have hk0 : (0 : ℚ) ≤ (k : ℚ) := Nat.cast_nonneg k
    have hk1 : (k : ℚ) ≤ ((s.verticalDivisions - 1 : ℕ) : ℚ) := by
      exact_mod_cast Nat.le_pred_of_lt hk
    constructor
    · simp only [divisionZ, Nat.cast_zero, mul_zero, add_zero]
      have h6 := mul_nonneg (le_of_lt hd2) hk0
      linarith
    · have hm : divisionZ s k ≤ divisionZ s (s.verticalDivisions - 1) := by
        simp only [divisionZ]
        have h6 := mul_le_mul_of_nonneg_left hk1 (le_of_lt hd2)
        linarith
      rw [hlast] at hm
      exact hm

/-- Counterexample to C2 as stated: with thickness 1, two vertical and one
horizontal division and layer top z = 10, the emitted z values are
19∕2 and 10, and 10 lies outside the claimed span
[top − thickness, top − thickness∕V] = [9, 19∕2]. -/
theorem perimeter_zspan_counterexample :
    (perimeterLoopEvents (addSkinnedPerimeter geomId skeinSquare).1).map Prod.snd =
      [19/2, 10] ∧
    ¬ (∀ zv ∈ (perimeterLoopEvents (addSkinnedPerimeter geomId skeinSquare).1).map Prod.snd,
        skeinSquare.oldLocation.z - skeinSquare.layerThickness ≤ zv ∧
        zv ≤ skeinSquare.oldLocation.z -
          skeinSquare.layerThickness / (skeinSquare.verticalDivisions : ℚ)) := by
  have h1 : (perimeterLoopEvents (addSkinnedPerimeter geomId skeinSquare).1).map Prod.snd =
      [19/2, 10] := by
    simp [addSkinnedPerimeter, skeinSquare, geomId, insetPerimeters,
      getClippedSimplifiedLoopPathByLoop, perimeterLoopEvents, divisionZ, bottomZ,
      verticalDivisionsFloat, horizontalPerimeterDivisionsFloat, perimeterRadius,
      getIsMinimumSides, squareLoop, List.range_succ]
    norm_num
  refine ⟨h1, ?_⟩
  intro hall
  rw [h1] at hall
  have h10 := (hall 10 (by norm_num)).2
  norm_num [skeinSquare] at h10

/-- Witness for C2 (amended): at the concrete square-loop state the
hypotheses hold and there are exactly 2 × 1 emitted loops. -/
theorem addSkinnedPerimeter_divisions_witness :
    skeinSquare.perimeter = some squareLoop ∧
    getIsMinimumSides (insetPerimeters geomId skeinSquare squareLoop.dropLast) 3 = true ∧
    0 < skeinSquare.layerThickness ∧
    (perimeterLoopEvents (addSkinnedPerimeter geomId skeinSquare).1).length =
      skeinSquare.verticalDivisions * skeinSquare.horizontalPerimeterDivisions := by
  have h := addSkinnedPerimeter_divisions geomId skeinSquare squareLoop rfl
    (by decide) (by decide) (by decide) (by norm_num [skeinSquare])
  exact ⟨rfl, by decide, by norm_num [skeinSquare], h.2.1⟩

theorem initScan_marker (markerLine : String) (post : List String)
    (hmark : getFirstWord (getSplitLineBeforeBracketSemicolon markerLine) =
      "(</extruderInitialization>)") :
    ∀ pre : List String,
    (∀ l ∈ pre, getFirstWord (getSplitLineBeforeBracketSemicolon l) ≠
      "(</extruderInitialization>)") →
    ∀ (p : InitParams) (out : List String) (done : ℕ),
    (initScan p out done (pre ++ markerLine :: post)).output =
      out ++ pre ++ [skinProcedureLine] ∧
    (initScan p out done (pre ++ markerLine :: post)).lineIndex = done + pre.length := by
  intro pre
  induction pre with
  | nil =>
    intro _ p out done
    simp [initScan, hmark]
  | cons l pre2 ih =>
    intro hpre p out done
    have hl : getFirstWord (getSplitLineBeforeBracketSemicolon l) ≠
        "(</extruderInitialization>)" := hpre l (List.mem_cons_self l pre2)
    have ih2 := ih (fun x hx => hpre x (List.mem_cons_of_mem l hx))
      (updateParams p (getFirstWord (getSplitLineBeforeBracketSemicolon l))
        (getSplitLineBeforeBracketSemicolon l)) (out ++ [l]) (done + 1)
    simp only [List.cons_append, initScan, hl, if_false, List.append_eq]
    constructor
    · rw [ih2.1]
      simp
    · rw [ih2.2]
      simp only [List.length_cons]
      omega

/-- C7 (corrected to): during parameter parsing every line before the
end-of-initialization marker is forwarded unchanged and a stage-completion
tag is emitted at the marker; but control returns with the scan position AT
the marker line (not one past it), and the marker line itself is forwarded
unchanged by the subsequent body scan which resumes at that position. -/
theorem parseInitialization_scan (pre : List String) (markerLine : String)
    (post : List String)
    (hmark : getFirstWord (getSplitLineBeforeBracketSemicolon markerLine) =
      "(</extruderInitialization>)")
    (hpre : ∀ l ∈ pre, getFirstWord (getSplitLineBeforeBracketSemicolon l) ≠
      "(</extruderInitialization>)") :
    (parseInitialization (pre ++ markerLine :: post)).output =
      pre ++ [skinProcedureLine] ∧
    (parseInitialization (pre ++ markerLine :: post)).lineIndex = pre.length ∧
    (∀ hooks s, parseLine hooks s markerLine = some (s, [markerLine])) := by
  have h := initScan_marker markerLine post hmark pre hpre {} [] 0
  refine ⟨by simpa using h.1, by simpa using h.2, ?_⟩
  intro hooks s
  cases hsl : getSplitLineBeforeBracketSemicolon markerLine with
  | nil => rw [hsl] at hmark; exact absurd hmark (by decide)
  | cons fw args =>
    rw [hsl] at hmark
    have hfw : fw = "(</extruderInitialization>)" := hmark
    subst hfw
    simp only [parseLine]
    rw [hsl]
    simp

/-- Counterexample to C7 as stated: for a header whose marker sits at index
1, the returned scan position is 1 — the marker's own index, not 2 — and
the marker line is absent from the parameter parser's output. -/
theorem parseInitialization_counterexample :
    (parseInitialization initLinesCx).lineIndex = 1 ∧
    ¬ ((parseInitialization initLinesCx).lineIndex = 1 + 1) ∧
    "(</extruderInitialization>)" ∉ (parseInitialization initLinesCx).output := by
  decide

/-- Witness for C7 (amended) at a concrete three-line header. -/
theorem parseInitialization_scan_witness :
    (parseInitialization
      (["(<layerThickness> 0.4"] ++ "(</extruderInitialization>)" :: ["(<layer> 0.0"])).output =
      ["(<layerThickness> 0.4"] ++ [skinProcedureLine] ∧
    (parseInitialization
      (["(<layerThickness> 0.4"] ++ "(</extruderInitialization>)" :: ["(<layer> 0.0"])).lineIndex =
      (["(<layerThickness> 0.4"] : List String).length ∧
    parseLine hooks0 sNoBuf "(</extruderInitialization>)" =
      some (sNoBuf, ["(</extruderInitialization>)"]) := by
  have h := parseInitialization_scan ["(<layerThickness> 0.4"]
    "(</extruderInitialization>)" ["(<layer> 0.0"] (by decide) (by decide)
  exact ⟨h.1, h.2.1, h.2.2 hooks0 sNoBuf⟩

/-- C8 (corrected to): an end-of-perimeter or end-of-infill marker without
a matching start is a silent no-op (the generator invoked on an absent
buffer does nothing), and infill loop-start and point markers are ignored
while no boundary set is open; but an infill point marker while the
boundary set is open and no loop buffer has been started is a fatal error,
not a no-op. -/
theorem unbalanced_marker_noop (hooks : GenHooks) (s : LineState) :
    (∀ line rest, getSplitLineBeforeBracketSemicolon line = "(</perimeter>)" :: rest →
      s.perimeter = none → parseLine hooks s line = some (s, [line])) ∧
    (∀ line rest, getSplitLineBeforeBracketSemicolon line = "(</infill>)" :: rest →
      s.infillBoundaries = none → parseLine hooks s line = some (s, [line])) ∧
    (∀ line rest, getSplitLineBeforeBracketSemicolon line = "(<infillBoundary>)" :: rest →
      s.infillBoundaries = none → parseLine hooks s line = some (s, [line])) ∧
    (∀ line rest, getSplitLineBeforeBracketSemicolon line = "(<infillPoint>" :: rest →
      s.infillBoundaries = none → parseLine hooks s line = some (s, [line])) ∧
    (∀ line rest bs, getSplitLineBeforeBracketSemicolon line = "(<infillPoint>" :: rest →
      s.infillBoundaries = some bs → s.infillBoundary = none →
      parseLine hooks s line = none) := by
  refine ⟨?_, ?_, ?_, ?_, ?_⟩
  · intro line rest hsl hbuf
    simp only [parseLine]
    rw [hsl]
    simp [hbuf]
  · intro line rest hsl hbuf
    simp only [parseLine]
    rw [hsl]
    simp [hbuf]
  · intro line rest hsl hbuf
    simp only [parseLine]
    rw [hsl]
    simp [hbuf]
  · intro line rest hsl hbuf
    simp only [parseLine]
    rw [hsl]
    simp [hbuf]
  · intro line rest bs hsl hbuf hlb
    simp only [parseLine]
    rw [hsl]
    simp [hbuf, hlb]

/-- Counterexample to C8 as stated: a stream whose `(<infillPoint>` arrives
while infill capture is open but before any `(<infillBoundary>)` makes the
whole transform fail (Python: `AttributeError` on appending to `None`)
instead of being a silent no-op. -/
theorem unbalanced_marker_counterexample :
    getCraftedGcodeLines hooks0 0 crashLines = none := by
  decide

/-- Witness for C8 (amended) at concrete states and marker lines. -/
theorem unbalanced_marker_noop_witness :
    sNoBuf.perimeter = none ∧
    parseLine hooks0 sNoBuf "(</perimeter>)" = some (sNoBuf, ["(</perimeter>)"]) ∧
    parseLine hooks0 sNoBuf "(</infill>)" = some (sNoBuf, ["(</infill>)"]) ∧
    parseLine hooks0 sNoBuf "(<infillBoundary>)" = some (sNoBuf, ["(<infillBoundary>)"]) ∧
    parseLine hooks0 { sNoBuf with infillBoundaries := some [] }
      "(<infillPoint> X1.0 Y2.0 Z0.0" = none := by
  have h := unbalanced_marker_noop hooks0 sNoBuf
  refine ⟨rfl, h.1 "(</perimeter>)" [] (by decide) rfl,
    h.2.1 "(</infill>)" [] (by decide) rfl,
    h.2.2.1 "(<infillBoundary>)" [] (by decide) rfl, ?_⟩
  exact (unbalanced_marker_noop hooks0 { sNoBuf with infillBoundaries := some [] }).2.2.2.2
    "(<infillPoint> X1.0 Y2.0 Z0.0" ["X1.0", "Y2.0", "Z0.0"] [] (by decide) rfl rfl

theorem processInfillPath_spec (s : Skein) (uz z : ℚ) (path : List Point)
    (evs : List Event) (s2 : Skein)
    (h : processInfillPath s uz z path = some (evs, s2)) :
    infillThreadEvents evs = [(path.map (cmul s.rotation), z)] ∧
    (∀ r : ℚ, Event.flowRate r ∉ evs) ∧
    ∃ pt : Point, (path.map (cmul s.rotation)).getLast? = some pt ∧
      s2 = { s with oldLocation := ⟨pt.1, pt.2, uz⟩ } := by
  unfold processInfillPath at h
  cases hm : path.map (cmul s.rotation) with
  | nil => rw [hm] at h; exact absurd h (by simp)
  | cons p0 rest =>
    rw [hm] at h
    simp only [Option.some.injEq, Prod.mk.injEq] at h
    obtain ⟨hevs, hs2⟩ := h
    subst hevs
    subst hs2
    have hlastD : (p0 :: rest).getLast? = some ((p0 :: rest).getLastD p0) := by
      rw [List.getLastD_eq_getLast?]
      cases hg : (p0 :: rest).getLast? with
      | none => simp [List.getLast?_eq_none_iff] at hg
      | some y => rfl
    refine ⟨?_, ?_, (p0 :: rest).getLastD p0, hlastD, rfl⟩
    · cases s.hopWhenExtrudingInfill && decide (z < uz) <;>
        simp [infillThreadEvents]
    · intro r
      cases s.hopWhenExtrudingInfill && decide (z < uz) <;> simp

theorem processInfillPaths_spec (uz z : ℚ) :
    ∀ (paths : List (List Point)) (s : Skein) (evs : List Event) (s2 : Skein),
    processInfillPaths s uz z paths = some (evs, s2) →
    (∀ r : ℚ, Event.flowRate r ∉ evs) ∧
    s2 = { s with oldLocation := s2.oldLocation } ∧
    (paths.getLast? = none → s2 = s) ∧
    (∀ lp, paths.getLast? = some lp →
      ∃ pt : Point, (lp.map (cmul s.rotation)).getLast? = some pt ∧
        s2.oldLocation = ⟨pt.1, pt.2, uz⟩) ∧
    infillThreadEvents evs = paths.map (fun q => (q.map (cmul s.rotation), z))
  | [], s, evs, s2, h => by
    simp only [processInfillPaths, Option.some.injEq, Prod.mk.injEq] at h
    obtain ⟨hevs, hs2⟩ := h
    subst hevs
    subst hs2
    simp [infillThreadEvents]
  | path :: rest, s, evs, s2, h => by
    simp only [processInfillPaths, Option.bind_eq_bind, bind, Option.bind] at h
    cases h1 : processInfillPath s uz z path with
    | none => rw [h1] at h; dsimp only at h; exact absurd h (by simp)
    | some pr1 =>
      obtain ⟨evs1, s1⟩ := pr1
      rw [h1] at h
      dsimp only at h
      cases h2 : processInfillPaths s1 uz z rest with
      | none => rw [h2] at h; dsimp only at h; exact absurd h (by simp)
      | some pr2 =>
        obtain ⟨evs2, s2b⟩ := pr2
        rw [h2] at h
        dsimp only at h
        simp only [Option.pure_def, Option.some.injEq, Prod.mk.injEq] at h
        obtain ⟨hevs, hs2⟩ := h
        subst hevs
        subst hs2
        obtain ⟨hth1, hnf1, pt1, hpt1, hs1⟩ := processInfillPath_spec s uz z path evs1 s1 h1
        subst hs1
        obtain ⟨hnf2, hframe2, hnone2, hsome2, hth2⟩ :=
          processInfillPaths_spec uz z rest _ evs2 s2b h2
        refine ⟨?_, ?_, ?_, ?_, ?_⟩
        · intro r hr
          rcases List.mem_append.mp hr with hr1 | hr2
          · exact hnf1 r hr1
          · exact hnf2 r hr2
        · rw [hframe2]
        · intro hnone
          cases rest with
          | nil => simp at hnone
          | cons a t => simp [List.getLast?_cons_cons] at hnone
        · intro lp hlp
          cases rest with
          | nil =>
            have hs2b : s2b = { s with oldLocation := ⟨pt1.1, pt1.2, uz⟩ } :=
              hnone2 rfl
            simp only [List.getLast?_singleton, Option.some.injEq] at hlp
            subst hlp
            exact ⟨pt1, hpt1, by rw [hs2b]⟩
          | cons a t =>
            have hlp2 : (a :: t).getLast? = some lp := by
              simpa [List.getLast?_cons_cons] using hlp
            obtain ⟨pt2, hpt2, hloc2⟩ := hsome2 lp hlp2
            exact ⟨pt2, by simpa using hpt2, hloc2⟩
        · rw [infillThreadEvents, List.filterMap_append, ← infillThreadEvents,
            ← infillThreadEvents, hth1, hth2]
          simp

theorem infillDivisions_spec (g : Geometry) (bs : List (List Point)) (bz tV oy : ℚ) :
    ∀ (ks : List ℕ) (s : Skein) (evs : List Event) (s2 : Skein),
    infillDivisions g bs bz tV oy ks s = some (evs, s2) →
    (∀ r : ℚ, Event.flowRate r ∉ evs) ∧
    s2 = { s with oldLocation := s2.oldLocation } ∧
    s2.oldLocation.z = s.oldLocation.z
  | [], s, evs, s2, h => by
    simp only [infillDivisions, Option.some.injEq, Prod.mk.injEq] at h
    obtain ⟨hevs, hs2⟩ := h
    subst hevs
    subst hs2
    simp
  | k :: ks, s, evs, s2, h => by
    simp only [infillDivisions, Option.bind_eq_bind, bind, Option.bind] at h
    cases h1 : addSkinnedInfillBoundary g s bs (oy * (if k % 2 = 0 then 1 else 0))
        s.oldLocation.z (bz + tV * (k : ℚ)) with
    | none => rw [h1] at h; dsimp only at h; exact absurd h (by simp)
    | some pr1 =>
      obtain ⟨evs1, s1⟩ := pr1
      rw [h1] at h
      dsimp only at h
      cases h2 : infillDivisions g bs bz tV oy ks s1 with
      | none => rw [h2] at h; dsimp only at h; exact absurd h (by simp)
      | some pr2 =>
        obtain ⟨evs2, s2b⟩ := pr2
        rw [h2] at h
        dsimp only at h
        simp only [Option.pure_def, Option.some.injEq, Prod.mk.injEq] at h
        obtain ⟨hevs, hs2⟩ := h
        subst hevs
        subst hs2
        obtain ⟨hnf1, hframe1, hnone1, hsome1, -⟩ :=
          processInfillPaths_spec s.oldLocation.z (bz + tV * (k : ℚ)) _ s evs1 s1
            (by simp only [addSkinnedInfillBoundary] at h1; exact h1)
        have hz1 : s1.oldLocation.z = s.oldLocation.z := by
          cases hgl : (g.getInfillPaths s.skinInfillInset s.skinInfillWidth
              (oy * (if k % 2 = 0 then 1 else 0))
              (bs.map (rotatedBoundary s (oy * (if k % 2 = 0 then 1 else 0))))).getLast? with
          | none => rw [hnone1 hgl]
          | some lp =>
            obtain ⟨pt, -, hloc⟩ := hsome1 lp hgl
            rw [hloc]
        obtain ⟨hnf2, hframe2, hz2⟩ := infillDivisions_spec g bs bz tV oy ks s1 evs2 s2b h2
        refine ⟨?_, ?_, ?_⟩
        · intro r hr
          rcases List.mem_append.mp hr with hr1 | hr2
          · exact hnf1 r hr1
          · exact hnf2 r hr2
        · rw [hframe2, hframe1]
        · rw [hz2, hz1]

/-- C4: for every generated sub-pass block — perimeter (either branch) or
infill — the emitted flow-rate commands bracket the block as
(scaled-rate, ..., original-rate): the first event is the scaled flow rate,
the last restores the flow rate tracked at capture time exactly, no
flow-rate command occurs in between, and the tracked flow rate itself is
unchanged by the generator. -/
theorem flowRate_bracketing (g : Geometry) (s : Skein) (p : List Point)
    (bs : List (List Point)) (evsI : List Event) (sI : Skein)
    (hVpos : 1 ≤ s.verticalDivisions) (hHpos : 1 ≤ s.horizontalPerimeterDivisions)
    (hp : s.perimeter = some p) (hbs : s.infillBoundaries = some bs)
    (hI : addSkinnedInfill g s = some (evsI, sI)) :
    (∃ scaled, ((addSkinnedPerimeter g s).1).head? = some (Event.flowRate scaled)) ∧
    ((addSkinnedPerimeter g s).1).getLast? = some (Event.flowRate s.oldFlowRate) ∧
    (∀ e ∈ (((addSkinnedPerimeter g s).1).drop 1).dropLast, ∀ r : ℚ, e ≠ Event.flowRate r) ∧
    ((addSkinnedPerimeter g s).2).oldFlowRate = s.oldFlowRate ∧
    evsI.head? = some (Event.flowRate
      (s.oldFlowRate / verticalDivisionsFloat s / s.horizontalInfillDivisionsFloat)) ∧
    evsI.getLast? = some (Event.flowRate s.oldFlowRate) ∧
    (∀ e ∈ (evsI.drop 1).dropLast, ∀ r : ℚ, e ≠ Event.flowRate r) ∧
    sI.oldFlowRate = s.oldFlowRate := by
  have hPer : addSkinnedPerimeter g s =
      ((if getIsMinimumSides (insetPerimeters g s p.dropLast) 3 then
          Event.flowRate (s.oldFlowRate / verticalDivisionsFloat s /
              horizontalPerimeterDivisionsFloat s) ::
            (List.range s.verticalDivisions).flatMap (fun k =>
              (insetPerimeters g s p.dropLast).map (fun q =>
                Event.perimeterLoop q (divisionZ s k)))
        else
          Event.flowRate (s.oldFlowRate / verticalDivisionsFloat s) ::
            (List.range s.verticalDivisions).map (fun k =>
              Event.perimeterLoop p (divisionZ s k))) ++ [Event.flowRate s.oldFlowRate],
       { s with perimeter := none }) := by
    unfold addSkinnedPerimeter
    rw [hp]
  unfold addSkinnedInfill at hI
  rw [hbs] at hI
  simp only [Option.bind_eq_bind, bind, Option.bind] at hI
  cases hdiv : infillDivisions g bs (bottomZ s)
      (s.layerThickness / verticalDivisionsFloat s) ((1/2) * s.skinInfillWidth)
      (List.range s.verticalDivisions) s with
  | none => rw [hdiv] at hI; dsimp only at hI; exact absurd hI (by simp)
  | some pr =>
    obtain ⟨evs1, s1⟩ := pr
    rw [hdiv] at hI
    dsimp only at hI
    simp only [Option.pure_def, Option.some.injEq, Prod.mk.injEq] at hI
    obtain ⟨hevsI, hsI⟩ := hI
    subst hevsI
    subst hsI
    obtain ⟨hnf, hframe, -⟩ := infillDivisions_spec g bs _ _ _ _ s evs1 s1 hdiv
    refine ⟨?_, ?_, ?_, ?_, ?_, ?_, ?_, ?_⟩
    · rw [hPer]
      by_cases hmin : getIsMinimumSides (insetPerimeters g s p.dropLast) 3 = true
      · exact ⟨s.oldFlowRate / verticalDivisionsFloat s / horizontalPerimeterDivisionsFloat s,
          by simp [hmin]⟩
      · exact ⟨s.oldFlowRate / verticalDivisionsFloat s,
          by simp [Bool.not_eq_true] at hmin; simp [hmin]⟩
    · rw [hPer]
      simp
    · rw [hPer]
      intro e he r hh
      rw [hh] at he
      by_cases hmin : getIsMinimumSides (insetPerimeters g s p.dropLast) 3 = true <;>
        simp [hmin] at he
    · rw [hPer]
    · rw [List.cons_append]
      rfl
    · exact List.getLast?_concat _
    · intro e he r hh
      rw [hh] at he
      have hmem : Event.flowRate r ∈ evs1 := by simpa using he
      exact hnf r hmem
    · rw [hframe]

/-- Witness for C4 at the concrete square-loop state, for both generators. -/
theorem flowRate_bracketing_witness :
    skeinSquare.perimeter = some squareLoop ∧
    skeinSquare.infillBoundaries = some [[(0, 0), (6, 0), (6, 6)]] ∧
    addSkinnedInfill geomId skeinSquare =
      some ([Event.flowRate (105/2), Event.flowRate 210],
        { skeinSquare with infillBoundaries := none }) ∧
    (∃ scaled, ((addSkinnedPerimeter geomId skeinSquare).1).head? =
      some (Event.flowRate scaled)) ∧
    ((addSkinnedPerimeter geomId skeinSquare).1).getLast? =
      some (Event.flowRate skeinSquare.oldFlowRate) ∧
    ([Event.flowRate ((105 : ℚ)/2), Event.flowRate 210] : List Event).getLast? =
      some (Event.flowRate skeinSquare.oldFlowRate) ∧
    ({ skeinSquare with infillBoundaries := none } : Skein).oldFlowRate =
      skeinSquare.oldFlowRate := by
  have hI : addSkinnedInfill geomId skeinSquare =
      some ([Event.flowRate (105/2), Event.flowRate 210],
        { skeinSquare with infillBoundaries := none }) := by
    simp [addSkinnedInfill, infillDivisions, addSkinnedInfillBoundary, processInfillPaths,
      rotatedBoundary, geomId, skeinSquare, bottomZ, verticalDivisionsFloat,
      List.range_succ]
    norm_num
  have h := flowRate_bracketing geomId skeinSquare squareLoop [[(0, 0), (6, 0), (6, 6)]]
    [Event.flowRate (105/2), Event.flowRate 210] { skeinSquare with infillBoundaries := none }
    (by decide) (by decide) rfl rfl hI
  exact ⟨rfl, rfl, hI, h.1, h.2.1, h.2.2.2.2.2.1, h.2.2.2.2.2.2.2⟩

/-- C10: whenever the infill generator emits at least one reconstructed
path, it overwrites the tracked position with the last emitted path
endpoint's (x, y) at the `upperZ` it was handed — the previous layer top,
not the sub-pass z — and only the position field changes; consequently the
whole infill generator leaves the z of the tracked position equal to the
layer top it started from, so later sub-passes and the next perimeter's
bottom-z computation read the original layer top. -/
theorem infill_position_update (g : Geometry) (s : Skein) :
    (∀ bs offsetY upperZ z evs s2 lastPair pt,
      addSkinnedInfillBoundary g s bs offsetY upperZ z = some (evs, s2) →
      (infillThreadEvents evs).getLast? = some lastPair →
      lastPair.1.getLast? = some pt →
      s2.oldLocation = ⟨pt.1, pt.2, upperZ⟩ ∧
      s2 = { s with oldLocation := s2.oldLocation }) ∧
    (∀ evs s2, addSkinnedInfill g s = some (evs, s2) →
      s2.oldLocation.z = s.oldLocation.z) := by
  constructor
  · intro bs offsetY upperZ z evs s2 lastPair pt h hlast hpt
    obtain ⟨-, hframe, hnone, hsome, hth⟩ :=
      processInfillPaths_spec upperZ z _ s evs s2
        (by simp only [addSkinnedInfillBoundary] at h; exact h)
    rw [hth, List.getLast?_map] at hlast
    cases hgl : (g.getInfillPaths s.skinInfillInset s.skinInfillWidth offsetY
        (bs.map (rotatedBoundary s offsetY))).getLast? with
    | none => rw [hgl] at hlast; exact absurd hlast (by simp)
    | some lp =>
      rw [hgl] at hlast
      simp at hlast
      obtain ⟨pt0, hpt0, hloc0⟩ := hsome lp hgl
      have hpair : lastPair.1 = lp.map (cmul s.rotation) := by rw [← hlast]
      rw [hpair] at hpt
      rw [hpt0] at hpt
      have hpt1 : pt0 = pt := by injection hpt
      subst hpt1
      exact ⟨hloc0, hframe⟩
  · intro evs s2 h
    unfold addSkinnedInfill at h
    cases hb : s.infillBoundaries with
    | none =>
      rw [hb] at h
      dsimp only at h
      simp only [Option.some.injEq, Prod.mk.injEq] at h
      obtain ⟨-, hs2⟩ := h
      rw [← hs2]
    | some bs =>
      rw [hb] at h
      simp only [Option.bind_eq_bind, bind, Option.bind] at h
      cases hdiv : infillDivisions g bs (bottomZ s)
          (s.layerThickness / verticalDivisionsFloat s) ((1/2) * s.skinInfillWidth)
          (List.range s.verticalDivisions) s with
      | none => rw [hdiv] at h; dsimp only at h; exact absurd h (by simp)
      | some pr =>
        obtain ⟨evs1, s1⟩ := pr
        rw [hdiv] at h
        dsimp only at h
        simp only [Option.pure_def, Option.some.injEq, Prod.mk.injEq] at h
        obtain ⟨-, hs2⟩ := h
        obtain ⟨-, -, hz⟩ := infillDivisions_spec g bs _ _ _ _ s evs1 s1 hdiv
        rw [← hs2]
        exact hz

/-- Witness for C10 at a concrete one-division infill state whose scanline
pipeline reconstructs the path [(1,2),(3,4)]. -/
theorem infill_position_update_witness :
    addSkinnedInfillBoundary geomPaths skeinInfill [[(0, 0), (6, 0), (6, 6)]] 0 5 4 =
      some ([Event.infillThread [(1, 2), (3, 4)] 4],
        { skeinInfill with oldLocation := ⟨3, 4, 5⟩ }) ∧
    ({ skeinInfill with oldLocation := (⟨3, 4, 5⟩ : Vector3) } : Skein).oldLocation =
      (⟨3, 4, 5⟩ : Vector3) ∧
    addSkinnedInfill geomPaths skeinInfill =
      some ([Event.flowRate 10, Event.infillThread [(1, 2), (3, 4)] 5, Event.flowRate 20],
        { skeinInfill with oldLocation := ⟨3, 4, 5⟩, infillBoundaries := none }) ∧
    ({ skeinInfill with oldLocation := (⟨3, 4, 5⟩ : Vector3), infillBoundaries := none } :
        Skein).oldLocation.z = skeinInfill.oldLocation.z := by
  have hB : addSkinnedInfillBoundary geomPaths skeinInfill [[(0, 0), (6, 0), (6, 6)]] 0 5 4 =
      some ([Event.infillThread [(1, 2), (3, 4)] 4],
        { skeinInfill with oldLocation := ⟨3, 4, 5⟩ }) := by
    simp [addSkinnedInfillBoundary, processInfillPaths, processInfillPath, rotatedBoundary,
      geomPaths, geomId, skeinInfill, skeinSquare, cmul, conj]
  have hI : addSkinnedInfill geomPaths skeinInfill =
      some ([Event.flowRate 10, Event.infillThread [(1, 2), (3, 4)] 5, Event.flowRate 20],
        { skeinInfill with oldLocation := ⟨3, 4, 5⟩, infillBoundaries := none }) := by
    simp [addSkinnedInfill, infillDivisions, addSkinnedInfillBoundary, processInfillPaths,
      processInfillPath, rotatedBoundary, geomPaths, geomId, skeinInfill, skeinSquare,
      bottomZ, verticalDivisionsFloat, List.range_succ, cmul, conj]
    norm_num
  have h1 := (infill_position_update geomPaths skeinInfill).1
    [[(0, 0), (6, 0), (6, 6)]] 0 5 4
    [Event.infillThread [(1, 2), (3, 4)] 4] { skeinInfill with oldLocation := ⟨3, 4, 5⟩ }
    ([(1, 2), (3, 4)], 4) (3, 4) hB rfl rfl
  have h2 := (infill_position_update geomPaths skeinInfill).2 _ _ hI
  exact ⟨hB, h1.1, hI, h2⟩

theorem adjustLayersFromBottom_empty (lf : ℤ) :
    ∀ (layers : List BoundaryLayer) (i : ℕ), (∀ L ∈ layers, L.loops = []) →
    adjustLayersFromBottom lf i layers = lf
  | [], _, _ => rfl
  | L :: rest, i, hall => by
    have h0 : L.loops = [] := hall L (List.mem_cons_self L rest)
    rw [adjustLayersFromBottom, if_neg (by simp [h0])]
    exact adjustLayersFromBottom_empty lf rest (i + 1)
      (fun x hx => hall x (List.mem_cons_of_mem L hx))

theorem adjustLayersFromBottom_first (lf : ℤ) (L : BoundaryLayer)
    (post : List BoundaryLayer) (hL : L.loops ≠ []) :
    ∀ (pre : List BoundaryLayer) (i : ℕ), (∀ x ∈ pre, x.loops = []) →
    adjustLayersFromBottom lf i (pre ++ L :: post) = lf + i + pre.length
  | [], i, _ => by
    rw [List.nil_append, adjustLayersFromBottom,
      if_pos (by simpa [List.length_pos] using hL)]
    simp
  | x :: pre2, i, hall => by
    have h0 : x.loops = [] := hall x (List.mem_cons_self x pre2)
    rw [List.cons_append, adjustLayersFromBottom, if_neg (by simp [h0]),
      adjustLayersFromBottom_first lf L post hL pre2 (i + 1)
        (fun y hy => hall y (List.mem_cons_of_mem x hy))]
    simp only [List.length_cons]
    push_cast
    omega

theorem parseLine_gating (hooks : GenHooks) (s s2 : LineState) (line : String)
    (out : List String)
    (hper : s.perimeter = none) (hinf : s.infillBoundaries = none)
    (hlt : s.layerIndex < s.layersFromBottom)
    (h : parseLine hooks s line = some (s2, out)) :
    s2.perimeter = none ∧ s2.infillBoundaries = none ∧
    s2.layerIndex = s.layerIndex + (if isLayerLine line then 1 else 0) ∧
    s2.layersFromBottom = s.layersFromBottom := by
  cases hsl : getSplitLineBeforeBracketSemicolon line with
  | nil =>
    unfold parseLine at h
    rw [hsl] at h
    simp only [Option.some.injEq, Prod.mk.injEq] at h
    obtain ⟨hs2, -⟩ := h
    subst hs2
    simp [isLayerLine, hsl, hper, hinf]
  | cons fw args =>
    unfold parseLine at h
    rw [hsl] at h
    dsimp only at h
    have hLL : isLayerLine line = (fw == "(<layer>") := by
      simp [isLayerLine, hsl]
    by_cases h1 : fw = "G1"
    · subst h1
      rw [if_pos rfl] at h
      simp only [hinf] at h
      simp only [Option.isSome_none, Bool.false_eq_true, if_false] at h
      simp only [hper] at h
      simp only [Option.some.injEq, Prod.mk.injEq] at h
      obtain ⟨hs2, -⟩ := h
      subst hs2
      refine ⟨rfl, rfl, ?_, rfl⟩
      simp [hLL]
    rw [if_neg h1] at h
    by_cases h2 : fw = "(<infill>)"
    · subst h2
      rw [if_pos rfl, if_neg (fun hc => absurd hc.1 (not_le.mpr hlt))] at h
      simp only [Option.some.injEq, Prod.mk.injEq] at h
      obtain ⟨hs2, -⟩ := h
      subst hs2
      refine ⟨hper, hinf, ?_, rfl⟩
      simp [hLL]
    rw [if_neg h2] at h
    by_cases h3 : fw = "(</infill>)"
    · subst h3
      rw [if_pos rfl, hinf] at h
      simp only [Option.some.injEq, Prod.mk.injEq] at h
      obtain ⟨hs2, -⟩ := h
      subst hs2
      refine ⟨hper, hinf, ?_, rfl⟩
      simp [hLL]
    rw [if_neg h3] at h
    by_cases h4 : fw = "(<infillBoundary>)"
    · subst h4
      rw [if_pos rfl, hinf] at h
      simp only [Option.some.injEq, Prod.mk.injEq] at h
      obtain ⟨hs2, -⟩ := h
      subst hs2
      refine ⟨hper, hinf, ?_, rfl⟩
      simp [hLL]
    rw [if_neg h4] at h
    by_cases h5 : fw = "(<infillPoint>"
    · subst h5
      rw [if_pos rfl, hinf] at h
      simp only [Option.some.injEq, Prod.mk.injEq] at h
      obtain ⟨hs2, -⟩ := h
      subst hs2
      refine ⟨hper, hinf, ?_, rfl⟩
      simp [hLL]
    rw [if_neg h5] at h
    by_cases h6 : fw = "(<layer>"
    · subst h6
      rw [if_pos rfl] at h
      simp only [Option.some.injEq, Prod.mk.injEq] at h
      obtain ⟨hs2, -⟩ := h
      subst hs2
      refine ⟨hper, hinf, ?_, rfl⟩
      simp [hLL]
    rw [if_neg h6] at h
    by_cases h7 : fw = "M101" ∨ fw = "M103"
    · rw [if_pos h7, hinf, hper] at h
      simp only [Option.isSome_none, Bool.false_eq_true, or_self, if_false] at h
      simp only [Option.some.injEq, Prod.mk.injEq] at h
      obtain ⟨hs2, -⟩ := h
      subst hs2
      refine ⟨hper, hinf, ?_, rfl⟩
      rcases h7 with rfl | rfl <;> simp [hLL]
    rw [if_neg h7] at h
    by_cases h8 : fw = "M108"
    · subst h8
      rw [if_pos rfl] at h
      cases hw : args.get? 0 with
      | none =>
        rw [show ("M108" :: args).get? 1 = args.get? 0 from rfl, hw] at h
        exact absurd h (by simp)
      | some w =>
        rw [show ("M108" :: args).get? 1 = args.get? 0 from rfl, hw] at h
        simp only [Option.some.injEq, Prod.mk.injEq] at h
        obtain ⟨hs2, -⟩ := h
        subst hs2
        refine ⟨hper, hinf, ?_, rfl⟩
        simp [hLL]
    rw [if_neg h8] at h
    by_cases h9 : fw = "(<perimeter>"
    · subst h9
      rw [if_pos rfl, if_neg (not_le.mpr hlt)] at h
      simp only [Option.some.injEq, Prod.mk.injEq] at h
      obtain ⟨hs2, -⟩ := h
      subst hs2
      refine ⟨hper, hinf, ?_, rfl⟩
      simp [hLL]
    rw [if_neg h9] at h
    by_cases h10 : fw = "(<rotation>"
    · subst h10
      rw [if_pos rfl] at h
      simp only [Option.some.injEq, Prod.mk.injEq] at h
      obtain ⟨hs2, -⟩ := h
      subst hs2
      refine ⟨hper, hinf, ?_, rfl⟩
      simp [hLL]
    rw [if_neg h10] at h
    by_cases h11 : fw = "(</perimeter>)"
    · subst h11
      rw [if_pos rfl, hper] at h
      simp only [Option.some.injEq, Prod.mk.injEq] at h
      obtain ⟨hs2, -⟩ := h
      subst hs2
      refine ⟨hper, hinf, ?_, rfl⟩
      simp [hLL]
    rw [if_neg h11] at h
    simp only [Option.some.injEq, Prod.mk.injEq] at h
    obtain ⟨hs2, -⟩ := h
    subst hs2
    refine ⟨hper, hinf, ?_, rfl⟩
    rw [hLL]
    have hne : (fw == "(<layer>") = false := by
      simpa using h6
    rw [hne]
    simp

theorem runLines_gating (hooks : GenHooks) :
    ∀ (lines : List String) (s s2 : LineState) (out : List String),
    s.perimeter = none → s.infillBoundaries = none →
    s.layerIndex + (layerLineCount lines : ℤ) < s.layersFromBottom →
    runLines hooks s lines = some (s2, out) →
    s2.perimeter = none ∧ s2.infillBoundaries = none
  | [], s, s2, out, hper, hinf, hcnt, h => by
    simp only [runLines, Option.some.injEq, Prod.mk.injEq] at h
    obtain ⟨hs2, -⟩ := h
    subst hs2
    exact ⟨hper, hinf⟩
  | line :: rest, s, s2, out, hper, hinf, hcnt, h => by
    simp only [runLines, Option.bind_eq_bind, bind, Option.bind] at h
    cases h1 : parseLine hooks s line with
    | none => rw [h1] at h; dsimp only at h; exact absurd h (by simp)
    | some pr1 =>
      obtain ⟨s1, out1⟩ := pr1
      rw [h1] at h
      dsimp only at h
      cases h2 : runLines hooks s1 rest with
      | none => rw [h2] at h; dsimp only at h; exact absurd h (by simp)
      | some pr2 =>
        obtain ⟨s2b, out2⟩ := pr2
        rw [h2] at h
        dsimp only at h
        simp only [Option.pure_def, Option.some.injEq, Prod.mk.injEq] at h
        obtain ⟨hs2, -⟩ := h
        subst hs2
        have hsplit : layerLineCount (line :: rest) =
            layerLineCount rest + (if isLayerLine line then 1 else 0) := by
          by_cases hil : isLayerLine line = true <;>
            simp [layerLineCount, List.countP_cons, hil]
        have hlt1 : s.layerIndex < s.layersFromBottom := by
          rw [hsplit] at hcnt
          push_cast at hcnt
          omega
        obtain ⟨hper1, hinf1, hli1, hlfb1⟩ :=
          parseLine_gating hooks s s1 line out1 hper hinf hlt1 h1
        refine runLines_gating hooks rest s1 s2b out2 hper1 hinf1 ?_ h2
        rw [hli1, hlfb1]
        rw [hsplit] at hcnt
        push_cast at hcnt ⊢
        omega

/-- C5: after the boundary prescan, the starting offset is increased by the
index of the first boundary layer with a non-empty loop set and is left
unmodified when no layer has loops; with layers 0 and 1 empty, layer 2 the
first with loops, and a configured starting index of 1, no perimeter or
infill capture occurs while at most three structural layer markers have
been scanned (structural layer indices up to 2, i.e. before index 3). -/
theorem layersFromBottom_offset :
    (∀ (lf : ℤ) (layers : List BoundaryLayer), (∀ L ∈ layers, L.loops = []) →
      adjustLayersFromBottom lf 0 layers = lf) ∧
    (∀ (lf : ℤ) (pre : List BoundaryLayer) (L : BoundaryLayer)
      (post : List BoundaryLayer),
      (∀ x ∈ pre, x.loops = []) → L.loops ≠ [] →
      adjustLayersFromBottom lf 0 (pre ++ L :: post) = lf + pre.length) ∧
    (∀ (lf : ℤ) (lines : List String) (pb : BoundaryResult),
      parseBoundaries lf lines = some pb →
      pb.layersFromBottom = adjustLayersFromBottom lf 0 pb.boundaryLayers) ∧
    (∀ (lines : List String) (pb : BoundaryResult) (p : InitParams)
      (hooks : GenHooks) (body : List String) (s2 : LineState) (out : List String),
      parseBoundaries 1 lines = some pb →
      (∃ L0 L1 L2 rest, pb.boundaryLayers = L0 :: L1 :: L2 :: rest ∧
        L0.loops = [] ∧ L1.loops = [] ∧ L2.loops ≠ []) →
      layerLineCount body ≤ 3 →
      runLines hooks (initialLineState pb p) body = some (s2, out) →
      s2.perimeter = none ∧ s2.infillBoundaries = none) := by
  have hparse : ∀ (lf : ℤ) (lines : List String) (pb : BoundaryResult),
      parseBoundaries lf lines = some pb →
      pb.layersFromBottom = adjustLayersFromBottom lf 0 pb.boundaryLayers := by
    intro lf lines pb h
    unfold parseBoundaries at h
    cases hps : prescanLines ⟨[], -1, none⟩ lines with
    | none => rw [hps] at h; exact absurd h (by simp)
    | some st =>
      rw [hps] at h
      simp at h
      subst h
      rfl
  refine ⟨fun lf layers hall => adjustLayersFromBottom_empty lf layers 0 hall,
    ?_, hparse, ?_⟩
  · intro lf pre L post hpre hL
    rw [adjustLayersFromBottom_first lf L post hL pre 0 hpre]
    push_cast
    omega
  · intro lines pb p hooks body s2 out hpb hshape hcnt hrun
    obtain ⟨L0, L1, L2, rest, hlayers, h0, h1, h2⟩ := hshape
    have hlfb : pb.layersFromBottom = 3 := by
      rw [hparse 1 lines pb hpb, hlayers]
      have := adjustLayersFromBottom_first 1 L2 rest h2 [L0, L1] 0
        (by intro x hx
            simp only [List.mem_cons, List.not_mem_nil, or_false] at hx
            rcases hx with rfl | rfl
            · exact h0
            · exact h1)
      simpa using this
    refine runLines_gating hooks body (initialLineState pb p) s2 out rfl rfl ?_ hrun
    simp only [initialLineState, hlfb]
    omega

/-- Witness for C5: the concrete prescan with layers 0 and 1 empty and
layer 2 holding a loop yields starting offset 1 + 2 = 3, and scanning a
body with three layer markers, a perimeter start and a motion command
captures nothing. -/
theorem layersFromBottom_offset_witness :
    parseBoundaries 1 prescanLines5 = some pb5 ∧
    pb5.layersFromBottom = 3 ∧
    layerLineCount body5 ≤ 3 ∧
    runLines hooks0 (initialLineState pb5 {}) body5 = some (state5, body5) ∧
    state5.perimeter = none ∧ state5.infillBoundaries = none := by
  have hrun : runLines hooks0 (initialLineState pb5 {}) body5 = some (state5, body5) := by
    decide
  have h := layersFromBottom_offset.2.2.2 prescanLines5 pb5 {} hooks0 body5 state5 body5
    (by decide)
    ⟨⟨"0.0", []⟩, ⟨"1.0", []⟩, ⟨"2.0", [[["(<boundaryPoint>", "X1.0", "Y2.0", "Z2.0"]]]⟩,
      [], by decide, rfl, rfl, by decide⟩
    (by decide) hrun
  exact ⟨by decide, by decide, by decide, hrun, h.1, h.2⟩

end Skin
